import Mathlib

/-!
Shallow embedding of `aliot/aliot_obj.py` (class `AliotObj`): the connection
state machine, the inbound message dispatcher, the outbound sender, the
registries and the document client.  Callbacks supplied by user code are
external to the repository; they are represented by identifiers (for
listeners, hooks) or by opaque Lean functions (for action handlers), and an
invocation of such a callback is recorded as an observable output event.
-/

namespace Aliot

/-- JSON-like values, the decoded payloads that flow through the dispatcher
(`msg`, `data`, record fields). -/
inductive JVal where
  | null
  | num (n : Int)
  | str (s : String)
  | list (xs : List JVal)
  | obj (kvs : List (String × JVal))

/-- Equality of a value with a Python string (used by `key in some_list`,
where the key is a `str`: only an equal `str` element matches). -/
def JVal.eqStr : JVal → String → Bool
  | .str s, k => s == k
  | _, _ => false

/-- Whether the character list `hay` starts with `needle`. -/
def startsWithList : List Char → List Char → Bool
  | [], _ => true
  | _ :: _, [] => false
  | a :: as, b :: bs => a == b && startsWithList as bs

/-- Whether `hay` contains `needle` as a contiguous subsequence
(Python `needle in hay` on strings). -/
def containsSeq (needle : List Char) : List Char → Bool
  | [] => startsWithList needle []
  | h :: t => startsWithList needle (h :: t) || containsSeq needle t

/-- Python `k in v` for a string key `k`: key test on a dict, element test on
a list, substring test on a string; `none` models the `TypeError` raised on
other values. -/
def pyIn (k : String) : JVal → Option Bool
  | .obj kvs => some (kvs.any (fun kv => kv.1 == k))
  | .list xs => some (xs.any (fun x => x.eqStr k))
  | .str s => some (containsSeq k.toList s.toList)
  | _ => none

/-- Python `v[k]` for a string key `k`: dict lookup; `none` models the
`KeyError`/`TypeError` raised when the key is absent or `v` is not a dict. -/
def jGet : JVal → String → Option JVal
  | .obj kvs, k => (kvs.find? (fun kv => kv.1 == k)).map Prod.snd
  | _, _ => none

/-- Modelled from the spec: the protocol event kinds of `ALIVE_IOT_EVENT`
(the module `aliot.constants` is not part of the sources; the spec, section 6,
lists the event kinds used by the protocol). -/
inductive Ev where
  | CONNECT_OBJECT
  | CONNECT_SUCCESS
  | SEND_ACTION
  | SEND_ACTION_DONE
  | RECEIVE_ACTION
  | SUBSCRIBE_LISTENER
  | SUBSCRIBE_LISTENER_SUCCESS
  | RECEIVE_LISTEN
  | SEND_BROADCAST
  | RECEIVE_BROADCAST
  | UPDATE_COMPONENT
  | UPDATE_DOC
  | SEND_ROUTE
  | GET_DOC
  | GET_FIELD
  | ERROR
  | PING
  | PONG
deriving DecidableEq

/-- The `event` field of a decoded inbound message: one of the protocol
events, Python `None` (matched by `case None: pass`), or any other string
(which matches no `case` of the `match` in `__on_message` and is ignored). -/
inductive InEvent where
  | known (e : Ev)
  | noneEvent
  | unknownEvent (s : String)

/-- A lifecycle-hook slot: `on_start`/`on_end` store a
`(callback, args, kwargs)` triple, while the deprecated `main_loop` stores its
wrapper function bare.  Callbacks are external user code, named by a tag. -/
inductive HookSlot where
  | triple (f : Nat) (args : List JVal) (kwargs : List (String × JVal))
  | bare (f : Nat)

/-- Python `slot[0]` (and the companion `slot[1]`, `slot[2]`) on a hook slot:
defined on a triple, a `TypeError` (`none`) on a bare function. -/
def hookSlotFst : HookSlot → Option (Nat × List JVal × List (String × JVal))
  | .triple f a k => some (f, a, k)
  | .bare _ => none

/-- An entry of the `__protocols` dict: the wrapper built by `on_recv`
remembers whether to log the reception and wraps the user handler
(external user code, modelled as an opaque function). -/
structure ActionEntry where
  logReception : Bool
  func : JVal → JVal

/-- An entry of the `__listeners` list: the dict
`{'func': wrapper, 'fields': fields}` built by `listen`; the wrapper is
external user code, named by a tag. -/
structure Listener where
  func : Nat
  fields : List String

/-- The mutable state of an `AliotObj` that the claims touch: the physical
(`__connected`) and logical (`__connected_to_alivecode`) flags, the
registries, the hook slots, the send counter (`__repeats`) and the
subscribe-acknowledgment counter (`__listeners_set`). -/
structure ObjState where
  connected : Bool
  connectedToAlivecode : Bool
  protocols : List (Int × ActionEntry)
  listeners : List Listener
  broadcastListener : Option Nat
  onStart : Option HookSlot
  onEnd : Option HookSlot
  repeats : Nat
  listenersSet : Nat
  log : Bool
  objId : JVal

/-- The state of a fresh `AliotObj` right after `__init__` (registries empty,
both flags down, both counters zero). -/
def initState (oid : JVal) : ObjState :=
  { connected := false
    connectedToAlivecode := false
    protocols := []
    listeners := []
    broadcastListener := none
    onStart := none
    onEnd := none
    repeats := 0
    listenersSet := 0
    log := false
    objId := oid }

/-- Observable effects of a step: wire writes and close requests, console
logging, and invocations of external user callbacks. -/
inductive Output where
  | wsSend (e : Ev) (data : JVal)
  | wsClose
  | printVal (v : JVal)
  | logInvalidStructure
  | logProtocolCalled (id : Int) (v : JVal)
  | errUnknownProtocol (idVal : JVal)
  | infoConnectionClosed
  | invokeAction (id : Int) (v : JVal)
  | invokeListener (f : Nat) (arg : List (String × JVal))
  | invokeBroadcast (f : Nat) (arg : JVal)
  | logSuccessConnected
  | errPayload (v : JVal)
  | failConnClosed
  | launchOnStart (f : Nat) (args : List JVal) (kwargs : List (String × JVal))
  | runOnEnd (f : Nat) (args : List JVal) (kwargs : List (String × JVal))
  | infoClosed
  | logEncoding (e : Ev) (data : JVal)
  | logSending (e : Ev) (data : JVal)
  | warnDeprecated

/-- Result of a dispatcher step: the new state, the outputs in order, and
whether an exception escaped (aborting the rest of the step). -/
structure PRes where
  st : ObjState
  out : List Output
  exn : Bool

/-- `AliotObj.__send_event`: writes to the wire (and bumps the send counter
`__repeats`, logging the encoding if `__log` is on) only when physically
connected; otherwise it does nothing at all. -/
def send_event (s : ObjState) (e : Ev) (d : JVal) : ObjState × List Output :=
  if s.connected then
    ({ s with repeats := s.repeats + 1 },
      (if s.log then [Output.logEncoding e d, Output.logSending e d] else [])
        ++ [Output.wsSend e d])
  else (s, [])

/-- The `connected_to_alivecode` property setter: stores the value and, when
the value is false while physically connected, calls `self.__ws.close()`. -/
def set_connected_to_alivecode (s : ObjState) (value : Bool) :
    ObjState × List Output :=
  let s' := { s with connectedToAlivecode := value }
  if !value && s.connected then (s', [Output.wsClose]) else (s', [])

/-- `self.protocols.get(msg_id)`: the dict of `on_recv` registrations is
keyed by `int` action ids, so only an integer message id can match. -/
def protoGet (ps : List (Int × ActionEntry)) : JVal → Option (Int × ActionEntry)
  | .num n => ps.find? (fun p => p.1 == n)
  | _ => none

/-- The wrapper that `on_recv` installs: optionally logs the reception,
invokes the user handler, then emits `SEND_ACTION_DONE` with the result
through `__send_event`. -/
def runWrapper (s : ObjState) (pid : Int) (entry : ActionEntry) (v : JVal) :
    PRes :=
  let o1 := if entry.logReception then [Output.logProtocolCalled pid v] else []
  let res := entry.func v
  let sd := send_event s Ev.SEND_ACTION_DONE
    (JVal.obj [("actionId", JVal.num pid), ("value", res)])
  ⟨sd.1, o1 ++ [Output.invokeAction pid v] ++ sd.2, false⟩

/-- The non-recursive tail of `AliotObj.__execute_protocol`: `print(msg)`,
the `id`/`value` key check (short-circuiting, raising on non-containers),
registry lookup, and either the unknown-protocol error path or the handler
invocation. -/
def execProtoTail (s : ObjState) (msg : JVal) : PRes :=
  let pr : List Output := [Output.printVal msg]
  match pyIn "id" msg with
  | none => ⟨s, pr, true⟩
  | some false => ⟨s, pr ++ [Output.logInvalidStructure], false⟩
  | some true =>
    match pyIn "value" msg with
    | none => ⟨s, pr, true⟩
    | some false => ⟨s, pr ++ [Output.logInvalidStructure], false⟩
    | some true =>
      match jGet msg "id" with
      | none => ⟨s, pr, true⟩
      | some msgId =>
        match protoGet s.protocols msgId with
        | none =>
          let so :=
            if s.connectedToAlivecode then set_connected_to_alivecode s false
            else (s, [])
          ⟨so.1, pr ++ so.2
              ++ [Output.errUnknownProtocol msgId, Output.infoConnectionClosed],
            false⟩
        | some p =>
          match jGet msg "value" with
          | none => ⟨s, pr, true⟩
          | some v =>
            let r := runWrapper s p.1 p.2 v
            ⟨r.st, pr ++ r.out, r.exn⟩

mutual

/-- `AliotObj.__execute_protocol`: a list payload is first dispatched
element-by-element by the `for` loop, and then — the method does not return
after the loop — control falls through to the single-record tail applied to
the list itself. -/
def execute_protocol (s : ObjState) (msg : JVal) : PRes :=
  match msg with
  | .list xs =>
    let r := execProtoList s xs
    if r.exn then r
    else
      let r2 := execProtoTail r.st (.list xs)
      ⟨r2.st, r.out ++ r2.out, r2.exn⟩
  | m => execProtoTail s m

/-- The `for m in msg: self.__execute_protocol(m)` loop; an escaping
exception aborts the remaining iterations. -/
def execProtoList (s : ObjState) (ms : List JVal) : PRes :=
  match ms with
  | [] => ⟨s, [], false⟩
  | m :: rest =>
    let r := execute_protocol s m
    if r.exn then r
    else
      let r2 := execProtoList r.st rest
      ⟨r2.st, r.out ++ r2.out, r2.exn⟩

end

/-- The dict comprehension of `__execute_listen`: the restriction of the
payload to the fields a listener subscribed to, in payload order. -/
def restrictFields (fields : List (String × JVal)) (lf : List String) :
    List (String × JVal) :=
  fields.filter (fun kv => lf.contains kv.1)

/-- `AliotObj.__execute_listen`: each listener whose restriction of the
payload is non-empty is invoked with exactly that restriction. -/
def execute_listen (listeners : List Listener)
    (fields : List (String × JVal)) : List Output :=
  listeners.filterMap (fun l =>
    let r := restrictFields fields l.fields
    if r.length > 0 then some (Output.invokeListener l.func r) else none)

/-- Lexicographic comparison of character lists by code point — the order
Python uses to compare `str` values. -/
def charListLtb : List Char → List Char → Bool
  | [], [] => false
  | [], _ :: _ => true
  | _ :: _, [] => false
  | a :: as, b :: bs =>
    if a < b then true else if b < a then false else charListLtb as bs

/-- Lexicographic comparison of strings by code point. -/
def strLt (a b : String) : Bool :=
  charListLtb a.data b.data

/-- Insertion of a string into a strictly sorted list, keeping it strictly
sorted (helper for the embedding of Python `sorted(set(xs))`). -/
def insertSorted (a : String) : List String → List String
  | [] => [a]
  | b :: rest =>
    if a = b then b :: rest
    else if strLt a b then a :: b :: rest
    else b :: insertSorted a rest

/-- Python `sorted(set(xs))` on strings: the strictly increasing enumeration
of the elements of `xs`. -/
def sortedDedup (xs : List String) : List String :=
  xs.foldr insertSorted []

/-- The sorted deduplicated union of all listeners' field names, as computed
on the `CONNECT_SUCCESS` path of `__on_message`:
`sorted(set([field for l in self.listeners for field in l['fields']]))`. -/
def unionFields (listeners : List Listener) : List String :=
  sortedDedup (listeners.map Listener.fields).flatten

/-- `AliotObj.__on_message` after decoding: the `match` on the `event` field
of the inbound message, with `data` its `data` field. -/
def on_message (s : ObjState) (event : InEvent) (data : JVal) : PRes :=
  match event with
  | .known e =>
    match e with
    | .CONNECT_SUCCESS =>
      if s.listeners.length = 0 then
        let so := set_connected_to_alivecode s true
        match so.1.onStart with
        | none => ⟨so.1, [Output.logSuccessConnected] ++ so.2, false⟩
        | some slot =>
          match hookSlotFst slot with
          | none => ⟨so.1, [Output.logSuccessConnected] ++ so.2, true⟩
          | some (f, a, k) =>
            ⟨so.1, [Output.logSuccessConnected] ++ so.2
                ++ [Output.launchOnStart f a k], false⟩
      else
        let fields := unionFields s.listeners
        let sd := send_event s Ev.SUBSCRIBE_LISTENER
          (JVal.obj [("fields", JVal.list (fields.map JVal.str))])
        ⟨sd.1, sd.2, false⟩
    | .RECEIVE_ACTION => execute_protocol s data
    | .RECEIVE_LISTEN =>
      match jGet data "fields" with
      | none => ⟨s, [], true⟩
      | some f =>
        match f with
        | .obj kvs => ⟨s, execute_listen s.listeners kvs, false⟩
        | _ =>
          if s.listeners.isEmpty then ⟨s, [], false⟩ else ⟨s, [], true⟩
    | .RECEIVE_BROADCAST =>
      match jGet data "data" with
      | none => ⟨s, [], true⟩
      | some d =>
        match s.broadcastListener with
        | some f => ⟨s, [Output.invokeBroadcast f d], false⟩
        | none => ⟨s, [], false⟩
    | .SUBSCRIBE_LISTENER_SUCCESS =>
      let s1 := { s with listenersSet := s.listenersSet + 1 }
      if s1.listenersSet = s1.listeners.length then
        match s1.onStart with
        | none =>
          let so := set_connected_to_alivecode s1 true
          ⟨so.1, [Output.logSuccessConnected] ++ so.2, false⟩
        | some slot =>
          match hookSlotFst slot with
          | none => ⟨s1, [], true⟩
          | some (f, a, k) =>
            let so := set_connected_to_alivecode s1 true
            ⟨so.1, [Output.launchOnStart f a k, Output.logSuccessConnected]
                ++ so.2, false⟩
      else ⟨s1, [], false⟩
    | .ERROR =>
      let so := set_connected_to_alivecode s false
      ⟨so.1, [Output.errPayload data] ++ so.2 ++ [Output.failConnClosed],
        false⟩
    | .PING =>
      let sd := send_event s Ev.PONG JVal.null
      ⟨sd.1, sd.2, false⟩
    | _ => ⟨s, [], false⟩
  | .noneEvent => ⟨s, [], false⟩
  | .unknownEvent _ => ⟨s, [], false⟩

/-- A websocket-level event delivered to the `AliotObj` callbacks. -/
inductive WsEvent where
  | openEv
  | message (e : InEvent) (data : JVal)
  | closeEv

/-- One callback of the websocket loop: `__on_open` (marks physically
connected and sends `CONNECT_OBJECT`), `__on_message`, or `__on_close`
(clears both flags directly, logs, then runs the on-end hook
synchronously). -/
def ws_step (s : ObjState) (ev : WsEvent) : PRes :=
  match ev with
  | .openEv =>
    let s0 := { s with connected := true }
    let sd := send_event s0 Ev.CONNECT_OBJECT
      (JVal.obj [("id", s0.objId)])
    ⟨sd.1, sd.2, false⟩
  | .message e d => on_message s e d
  | .closeEv =>
    let s1 := { s with connected := false, connectedToAlivecode := false }
    match s1.onEnd with
    | none => ⟨s1, [Output.infoClosed], false⟩
    | some slot =>
      match hookSlotFst slot with
      | none => ⟨s1, [Output.infoClosed], true⟩
      | some (f, a, k) => ⟨s1, [Output.infoClosed, Output.runOnEnd f a k], false⟩

/-- The state after a sequence of websocket callbacks. -/
def runEvents (s : ObjState) (evs : List WsEvent) : ObjState :=
  evs.foldl (fun t e => (ws_step t e).st) s

/-- The state after `k` consecutive `SUBSCRIBE_LISTENER_SUCCESS` messages. -/
def ackRun (s : ObjState) : Nat → ObjState
  | 0 => s
  | k + 1 =>
    (on_message (ackRun s k) (.known .SUBSCRIBE_LISTENER_SUCCESS) .null).st

/-- An error raised by a hook registration: the `ValueError` of a occupied
slot (carrying the name of the already-registered callback), or the
`TypeError` raised when formatting that message indexes a bare slot. -/
inductive RegError where
  | valueError (occupant : Nat)
  | typeError

/-- The registration performed by `AliotObj.on_start` (its `inner`): raises
if the slot is occupied — before any assignment — and otherwise stores the
`(callback, args, kwargs)` triple. -/
def on_start_register (s : ObjState) (f : Nat) (args : List JVal)
    (kwargs : List (String × JVal)) : ObjState × Option RegError :=
  match s.onStart with
  | none => ({ s with onStart := some (.triple f args kwargs) }, none)
  | some slot =>
    match hookSlotFst slot with
    | some (g, _, _) => (s, some (.valueError g))
    | none => (s, some .typeError)

/-- The registration performed by `AliotObj.on_end` (its `inner`), the exact
mirror of `on_start_register` for the on-end slot. -/
def on_end_register (s : ObjState) (f : Nat) (args : List JVal)
    (kwargs : List (String × JVal)) : ObjState × Option RegError :=
  match s.onEnd with
  | none => ({ s with onEnd := some (.triple f args kwargs) }, none)
  | some slot =>
    match hookSlotFst slot with
    | some (g, _, _) => (s, some (.valueError g))
    | none => (s, some .typeError)

/-- The registration performed by the deprecated `AliotObj.main_loop` (its
`inner`): emits the deprecation warning and stores the wrapper function bare
into the on-start slot, unconditionally and without any occupancy check. -/
def main_loop_register (s : ObjState) (f : Nat) : ObjState × List Output :=
  ({ s with onStart := some (.bare f) }, [Output.warnDeprecated])

/-- The body of an HTTP response as seen by `get_doc`: empty, a valid JSON
document (already parsed), or text that is not valid JSON. -/
inductive RespBody where
  | empty
  | jsonBody (v : JVal)
  | invalid (raw : String)

/-- The distinguishable `print_err` entries that `get_doc` can emit. -/
inductive DocLog where
  | errFieldForbidden (field : String)
  | errFieldServer (field : String)
  | errFieldOther (field : String) (resp : JVal)
  | errDocForbidden
  | errDocServer
  | errDocOther (resp : JVal)

/-- What a `get_doc` call produces for its caller: a value (`some`), an
absent value (`none`, the implicit `return None`), or a raised exception. -/
inductive DocResult where
  | ok (v : Option JVal)
  | raised

/-- The `else` arm of `get_doc` (no truthy field given): `match` on the
status code; `json.loads(res.text) if res.text else None` on 201, and
`res.json()` — which raises on an empty or non-JSON body — inside the
fallback log message. -/
def getDocBranch (status : Nat) (body : RespBody) : DocResult × List DocLog :=
  if status = 201 then
    match body with
    | .empty => (.ok none, [])
    | .jsonBody v => (.ok (some v), [])
    | .invalid _ => (.raised, [])
  else if status = 403 then (.ok none, [DocLog.errDocForbidden])
  else if status = 500 then (.ok none, [DocLog.errDocServer])
  else
    match body with
    | .jsonBody v => (.ok none, [DocLog.errDocOther v])
    | _ => (.raised, [])

/-- The `if field:` arm of `get_doc`, for a truthy field name. -/
def getFieldBranch (field : String) (status : Nat) (body : RespBody) :
    DocResult × List DocLog :=
  if status = 201 then
    match body with
    | .empty => (.ok none, [])
    | .jsonBody v => (.ok (some v), [])
    | .invalid _ => (.raised, [])
  else if status = 403 then (.ok none, [DocLog.errFieldForbidden field])
  else if status = 500 then (.ok none, [DocLog.errFieldServer field])
  else
    match body with
    | .jsonBody v => (.ok none, [DocLog.errFieldOther field v])
    | _ => (.raised, [])

/-- `AliotObj.get_doc`, abstracted over the HTTP response (status code and
body) the platform returns: `if field:` is Python truthiness, so `None` and
the empty string both select the whole-document branch. -/
def get_doc (field : Option String) (status : Nat) (body : RespBody) :
    DocResult × List DocLog :=
  match field with
  | some f =>
    if f = "" then getDocBranch status body else getFieldBranch f status body
  | none => getDocBranch status body

/-- The wire writes among the outputs of a step. -/
def sendOf : Output → Option (Ev × JVal)
  | .wsSend e d => some (e, d)
  | _ => none

/-! ### Helper lemmas about `sortedDedup` -/

theorem charListLtb_iff (x y : List Char) :
    charListLtb x y = true ↔ List.Lex (· < ·) x y := by
  induction x generalizing y with
  | nil =>
    cases y with
    | nil =>
      simp only [charListLtb, Bool.false_eq_true, false_iff]
      intro h; cases h
    | cons b bs =>
      simp only [charListLtb, true_iff]
      exact List.Lex.nil
  | cons a as ih =>
    cases y with
    | nil =>
      simp only [charListLtb, Bool.false_eq_true, false_iff]
      intro h; cases h
    | cons b bs =>
      simp only [charListLtb]
      by_cases hab : a < b
      · simp only [hab, if_true, true_iff]
        exact List.Lex.rel hab
      · by_cases hba : b < a
        · simp only [hab, if_false, hba, if_true, Bool.false_eq_true,
            false_iff]
          intro h
          cases h with
          | cons h => exact lt_irrefl _ hba
          | rel h => exact hab h
        · simp only [hab, if_false, hba, ih]
          have heq : a = b := le_antisymm (le_of_not_lt hba) (le_of_not_lt hab)
          subst heq
          constructor
          · intro h; exact List.Lex.cons h
          · intro h
            cases h with
            | cons h => exact h
            | rel h => exact absurd h (lt_irrefl a)

theorem strLt_iff (a b : String) : strLt a b = true ↔ a < b := by
  rw [strLt, charListLtb_iff]
  exact (by rw [String.lt_iff_toList_lt]; exact Iff.rfl :
    a < b ↔ List.Lex (· < ·) a.data b.data).symm

theorem mem_insertSorted (a x : String) (l : List String) :
    x ∈ insertSorted a l ↔ x = a ∨ x ∈ l := by
  induction l with
  | nil => simp [insertSorted]
  | cons b rest ih =>
    simp only [insertSorted]
    split
    · rename_i hab
      subst hab
      simp only [List.mem_cons]
      tauto
    · split
      · simp only [List.mem_cons]
      · simp only [List.mem_cons, ih]
        tauto

theorem pairwise_insertSorted (a : String) (l : List String)
    (h : l.Pairwise (· < ·)) : (insertSorted a l).Pairwise (· < ·) := by
  induction l with
  | nil => simp [insertSorted]
  | cons b rest ih =>
    rw [List.pairwise_cons] at h
    obtain ⟨hb, hrest⟩ := h
    simp only [insertSorted]
    split
    · exact List.Pairwise.cons hb hrest
    · split
      · rename_i hne hlt
        have hlt' : a < b := (strLt_iff a b).mp hlt
        refine List.Pairwise.cons ?_ (List.Pairwise.cons hb hrest)
        intro x hx
        rcases List.mem_cons.mp hx with h' | h'
        · exact h' ▸ hlt'
        · exact lt_trans hlt' (hb x h')
      · rename_i hne hnlt
        have hnlt' : ¬ a < b := fun h => hnlt ((strLt_iff a b).mpr h)
        have hba : b < a := lt_of_le_of_ne (le_of_not_lt hnlt') (Ne.symm hne)
        refine List.Pairwise.cons ?_ (ih hrest)
        intro x hx
        rcases (mem_insertSorted a x rest).mp hx with h' | h'
        · exact h' ▸ hba
        · exact hb x h'

theorem mem_sortedDedup (x : String) (xs : List String) :
    x ∈ sortedDedup xs ↔ x ∈ xs := by
  induction xs with
  | nil => simp [sortedDedup]
  | cons a t ih =>
    simp only [sortedDedup, List.foldr_cons] at *
    rw [mem_insertSorted, ih, List.mem_cons]

theorem pairwise_sortedDedup (xs : List String) :
    (sortedDedup xs).Pairwise (· < ·) := by
  induction xs with
  | nil => simp [sortedDedup]
  | cons a t ih =>
    simpa only [sortedDedup, List.foldr_cons] using
      pairwise_insertSorted a (sortedDedup t) ih

theorem mem_unionFields (x : String) (listeners : List Listener) :
    x ∈ unionFields listeners ↔ ∃ l ∈ listeners, x ∈ l.fields := by
  rw [unionFields, mem_sortedDedup, List.mem_flatten]
  constructor
  · rintro ⟨fs, hfs, hx⟩
    obtain ⟨l, hl, rfl⟩ := List.mem_map.mp hfs
    exact ⟨l, hl, hx⟩
  · rintro ⟨l, hl, hx⟩
    exact ⟨l.fields, List.mem_map.mpr ⟨l, hl, rfl⟩, hx⟩

/-! ### Claim theorems -/

/-- C4: an outbound send attempted while the physical connection is not open
is a silent no-op — the state is left untouched (nothing buffered, no
counter bump) and no output of any kind (no wire write, no log, no error) is
produced, for every event kind and payload. -/
theorem claim4_send_noop (s : ObjState) (e : Ev) (d : JVal)
    (h : s.connected = false) : send_event s e d = (s, []) := by
  simp [send_event, h]

/-- Witness for C4 at a concrete disconnected state. -/
theorem claim4_send_noop_witness :
    (initState JVal.null).connected = false ∧
      send_event (initState JVal.null) Ev.UPDATE_COMPONENT
        (JVal.obj [("id", JVal.str "x"), ("value", JVal.num 3)])
        = (initState JVal.null, []) :=
  ⟨rfl, claim4_send_noop _ _ _ rfl⟩

/-- C6: while the physical connection is open (which is the case whenever a
message is delivered, since `__on_open` runs first), receiving `PING`
produces exactly one `PONG` send; the only state change is the one performed
by the send primitive itself — the diagnostic send counter `__repeats` — and
nothing else changes. -/
theorem claim6_ping_pong (s : ObjState) (d : JVal) (h : s.connected = true) :
    on_message s (.known .PING) d =
      ⟨{ s with repeats := s.repeats + 1 },
        (if s.log then
          [Output.logEncoding Ev.PONG JVal.null,
           Output.logSending Ev.PONG JVal.null]
         else []) ++ [Output.wsSend Ev.PONG JVal.null], false⟩ := by
  simp [on_message, send_event, h]

/-- Witness for C6 at a concrete connected state. -/
theorem claim6_ping_pong_witness :
    ({ initState JVal.null with connected := true } : ObjState).connected
        = true ∧
      on_message { initState JVal.null with connected := true }
          (.known .PING) JVal.null =
        ⟨{ { initState JVal.null with connected := true } with
            repeats :=
              ({ initState JVal.null with connected := true } :
                ObjState).repeats + 1 },
          [Output.wsSend Ev.PONG JVal.null], false⟩ :=
  ⟨rfl, claim6_ping_pong { initState JVal.null with connected := true }
    JVal.null rfl⟩

/-- C8: when an on-start (resp. on-end) hook triple is already registered, a
second registration fails with the configuration `ValueError` naming the
occupant, and the object — in particular the occupied slot — is left
completely unchanged. -/
theorem claim8_duplicate_hook (s : ObjState) (f g : Nat)
    (a args : List JVal) (k kw : List (String × JVal)) :
    (s.onStart = some (.triple g args kw) →
      on_start_register s f a k = (s, some (.valueError g))) ∧
    (s.onEnd = some (.triple g args kw) →
      on_end_register s f a k = (s, some (.valueError g))) := by
  constructor
  · intro h
    simp [on_start_register, h, hookSlotFst]
  · intro h
    simp [on_end_register, h, hookSlotFst]

/-- Witness for C8 at a concrete object with both slots occupied. -/
theorem claim8_duplicate_hook_witness :
    ({ initState JVal.null with
        onStart := some (.triple 5 [] [])
        onEnd := some (.triple 6 [] []) } : ObjState).onStart
        = some (.triple 5 [] []) ∧
      on_start_register
        { initState JVal.null with
            onStart := some (.triple 5 [] [])
            onEnd := some (.triple 6 [] []) } 9 [] []
        = ({ initState JVal.null with
              onStart := some (.triple 5 [] [])
              onEnd := some (.triple 6 [] []) }, some (.valueError 5)) ∧
      on_end_register
        { initState JVal.null with
            onStart := some (.triple 5 [] [])
            onEnd := some (.triple 6 [] []) } 9 [] []
        = ({ initState JVal.null with
              onStart := some (.triple 5 [] [])
              onEnd := some (.triple 6 [] []) }, some (.valueError 6)) := by
  refine ⟨rfl, ?_, ?_⟩
  · exact (claim8_duplicate_hook _ 9 5 [] [] [] []).1 rfl
  · exact (claim8_duplicate_hook _ 9 6 [] [] [] []).2 rfl

/-- C9: the deprecated `main_loop` stores its wrapper bare in the on-start
slot without raising, silently replacing any previously registered hook, and
the stored value is not the `(callback, args, kwargs)` triple: the
`slot[0]` indexing done by the connection-success launch path fails on it
(a `TypeError` escapes `__on_message`). -/
theorem claim9_main_loop (s : ObjState) (f : Nat) (slot : HookSlot)
    (_h : s.onStart = some slot) :
    (main_loop_register s f).1.onStart = some (.bare f) ∧
    hookSlotFst (.bare f) = none ∧
    (∀ t : ObjState, t.onStart = some (.bare f) → t.listeners = [] →
      (on_message t (.known .CONNECT_SUCCESS) JVal.null).exn = true) := by
  refine ⟨rfl, rfl, ?_⟩
  intro t ht hl
  simp [on_message, hl, set_connected_to_alivecode, ht, hookSlotFst]

/-- Witness for C9: replacing a previously registered triple. -/
theorem claim9_main_loop_witness :
    ({ initState JVal.null with onStart := some (.triple 5 [] []) } :
        ObjState).onStart = some (.triple 5 [] []) ∧
      (main_loop_register
        { initState JVal.null with onStart := some (.triple 5 [] []) }
        7).1.onStart = some (.bare 7) ∧
      hookSlotFst (.bare 7) = none ∧
      (on_message
          { initState JVal.null with onStart := some (.bare 7) }
          (.known .CONNECT_SUCCESS) JVal.null).exn = true := by
  have h := claim9_main_loop
    { initState JVal.null with onStart := some (.triple 5 [] []) } 7
    (.triple 5 [] []) rfl
  exact ⟨rfl, h.1, h.2.1,
    h.2.2 { initState JVal.null with onStart := some (.bare 7) } rfl rfl⟩

/-- C1 (behaviour at the failing input): for the sequence payload
`[{"id": 1, "value": null}, {"value": null}]` with action `1` registered, the
loop of `__execute_protocol` dispatches the first record (invocation plus
`SEND_ACTION_DONE`) and logs-and-drops the second — but then, because the
method does not return after the loop, it falls through and processes the
list itself as a record, printing it and logging a second
"does not have a valid structure" message: an effect beyond the per-record
ones.  A sequence containing the strings `"id"` and `"value"` even passes
the key check and raises a `TypeError` on `msg["id"]`. -/
theorem claim1_list_fallthrough :
    (execute_protocol
        { initState JVal.null with
            connected := true
            protocols := [(1, ⟨false, fun v => v⟩)] }
        (JVal.list [JVal.obj [("id", JVal.num 1), ("value", JVal.null)],
          JVal.obj [("value", JVal.null)]])).out
      = [Output.printVal (JVal.obj [("id", JVal.num 1), ("value", JVal.null)]),
          Output.invokeAction 1 JVal.null,
          Output.wsSend Ev.SEND_ACTION_DONE
            (JVal.obj [("actionId", JVal.num 1), ("value", JVal.null)]),
          Output.printVal (JVal.obj [("value", JVal.null)]),
          Output.logInvalidStructure,
          Output.printVal
            (JVal.list [JVal.obj [("id", JVal.num 1), ("value", JVal.null)],
              JVal.obj [("value", JVal.null)]]),
          Output.logInvalidStructure] ∧
    (execute_protocol (initState JVal.null)
        (JVal.list [JVal.str "id", JVal.str "value"])).exn = true :=
  ⟨rfl, rfl⟩

/-- C3 (counterexample): in a physically-open but logically-disconnected
state, a well-formed action record with an unregistered id does **not**
invoke the `connected_to_alivecode` setter — the guard
`if self.connected_to_alivecode:` skips it — so, contrary to the claim that
the forcing happens regardless of the connection state beforehand (and would
close the open physical connection), no `ws.close()` is issued. -/
theorem claim3_counterexample :
    (execute_protocol { initState JVal.null with connected := true }
        (JVal.obj [("id", JVal.num 5), ("value", JVal.null)])).out
      = [Output.printVal (JVal.obj [("id", JVal.num 5), ("value", JVal.null)]),
          Output.errUnknownProtocol (JVal.num 5),
          Output.infoConnectionClosed] ∧
    Output.wsClose ∉
      (execute_protocol { initState JVal.null with connected := true }
        (JVal.obj [("id", JVal.num 5), ("value", JVal.null)])).out ∧
    ({ initState JVal.null with connected := true } : ObjState).connected
      = true ∧
    ({ initState JVal.null with connected := true } :
      ObjState).connectedToAlivecode = false := by
  refine ⟨rfl, ?_, rfl, rfl⟩
  intro hmem
  have : Output.wsClose ∈
      [Output.printVal (JVal.obj [("id", JVal.num 5), ("value", JVal.null)]),
        Output.errUnknownProtocol (JVal.num 5),
        Output.infoConnectionClosed] := hmem
  simp at this

/-- C3 (amended): a well-formed inbound action record whose id is not in the
registry logs the unknown-protocol error and invokes no handler, and leaves
the logical-connected flag false; the setter that forces the flag down (and
closes the physical connection while it is open) is invoked only when the
object is currently logically connected — when it is already logically
disconnected nothing is forced and no close is issued. -/
theorem claim3_unknown_action_amended (s : ObjState)
    (kvs : List (String × JVal)) (idv : JVal)
    (h1 : pyIn "id" (JVal.obj kvs) = some true)
    (h2 : pyIn "value" (JVal.obj kvs) = some true)
    (h3 : jGet (JVal.obj kvs) "id" = some idv)
    (h4 : protoGet s.protocols idv = none) :
    (execute_protocol s (JVal.obj kvs)).exn = false ∧
    (execute_protocol s (JVal.obj kvs)).st.connectedToAlivecode = false ∧
    (∀ p v, Output.invokeAction p v ∉ (execute_protocol s (JVal.obj kvs)).out) ∧
    Output.errUnknownProtocol idv ∈ (execute_protocol s (JVal.obj kvs)).out ∧
    (Output.wsClose ∈ (execute_protocol s (JVal.obj kvs)).out ↔
      s.connectedToAlivecode = true ∧ s.connected = true) ∧
    (execute_protocol s (JVal.obj kvs)).st
      = (if s.connectedToAlivecode then
          { s with connectedToAlivecode := false } else s) := by
  have hunf : execute_protocol s (JVal.obj kvs)
      = execProtoTail s (JVal.obj kvs) := by
    simp [execute_protocol]
  rw [hunf]
  simp only [execProtoTail, h1, h2, h3, h4]
  by_cases hl : s.connectedToAlivecode
  · simp [hl, set_connected_to_alivecode]
    by_cases hc : s.connected <;> simp [hc]
  · simp [hl, set_connected_to_alivecode]

/-- Witness for the amended C3 at a concrete live, connected state. -/
theorem claim3_unknown_action_witness :
    Output.errUnknownProtocol (JVal.num 5) ∈
      (execute_protocol
        { initState JVal.null with
            connected := true
            connectedToAlivecode := true }
        (JVal.obj [("id", JVal.num 5), ("value", JVal.null)])).out ∧
    Output.wsClose ∈
      (execute_protocol
        { initState JVal.null with
            connected := true
            connectedToAlivecode := true }
        (JVal.obj [("id", JVal.num 5), ("value", JVal.null)])).out ∧
    (execute_protocol
        { initState JVal.null with
            connected := true
            connectedToAlivecode := true }
        (JVal.obj [("id", JVal.num 5), ("value", JVal.null)])).st
      = { initState JVal.null with connected := true } := by
  have h := claim3_unknown_action_amended
    { initState JVal.null with
        connected := true
        connectedToAlivecode := true }
    [("id", JVal.num 5), ("value", JVal.null)] (JVal.num 5)
    rfl rfl rfl rfl
  exact ⟨h.2.2.2.1, h.2.2.2.2.1.mpr ⟨rfl, rfl⟩, h.2.2.2.2.2⟩

/-- C5: a registered listener is invoked exactly when the restriction of the
inbound field payload to its subscribed field set is non-empty, and then
with exactly that restriction; it is never invoked with anything else, and
every field it receives is one it subscribed to. -/
theorem claim5_listener_restriction (listeners : List Listener)
    (fields : List (String × JVal)) (l : Listener)
    (hmem : l ∈ listeners)
    (hnd : (listeners.map Listener.func).Nodup) :
    (restrictFields fields l.fields ≠ [] →
      Output.invokeListener l.func (restrictFields fields l.fields)
        ∈ execute_listen listeners fields) ∧
    (∀ arg, Output.invokeListener l.func arg ∈ execute_listen listeners fields
      → arg = restrictFields fields l.fields ∧ arg ≠ []) ∧
    (∀ kv ∈ restrictFields fields l.fields, kv.1 ∈ l.fields) := by
  refine ⟨?_, ?_, ?_⟩
  · intro hne
    refine List.mem_filterMap.mpr ⟨l, hmem, ?_⟩
    rw [if_pos (List.length_pos.mpr hne)]
  · intro arg hin
    obtain ⟨l', hl', hg⟩ := List.mem_filterMap.mp hin
    by_cases hlen : (restrictFields fields l'.fields).length > 0
    · rw [if_pos hlen] at hg
      obtain ⟨hfunc, harg⟩ := Output.invokeListener.inj (Option.some.inj hg)
      have hll : l' = l := List.inj_on_of_nodup_map hnd hl' hmem hfunc
      subst hll
      exact ⟨harg.symm, harg ▸ List.length_pos.mp hlen⟩
    · rw [if_neg hlen] at hg
      exact absurd hg (by simp)
  · intro kv hkv
    have := List.mem_filter.mp hkv
    simpa using this.2

/-- Witness for C5 at the spec's own example: a listener on `{"a","b"}`,
payload `{"a": 1, "c": 2}` invokes it with exactly `{"a": 1}`, and payload
`{"c": 2}` alone does not invoke it. -/
theorem claim5_listener_restriction_witness :
    Output.invokeListener 7 [("a", JVal.num 1)]
      ∈ execute_listen [⟨7, ["a", "b"]⟩]
        [("a", JVal.num 1), ("c", JVal.num 2)] ∧
    (∀ arg, Output.invokeListener 7 arg
      ∈ execute_listen [⟨7, ["a", "b"]⟩] [("c", JVal.num 2)] → False) := by
  have h1 := claim5_listener_restriction [⟨7, ["a", "b"]⟩]
    [("a", JVal.num 1), ("c", JVal.num 2)] ⟨7, ["a", "b"]⟩
    (List.mem_singleton.mpr rfl) (by simp)
  have h2 := claim5_listener_restriction [⟨7, ["a", "b"]⟩]
    [("c", JVal.num 2)] ⟨7, ["a", "b"]⟩
    (List.mem_singleton.mpr rfl) (by simp)
  have hr1 : restrictFields [("a", JVal.num 1), ("c", JVal.num 2)] ["a", "b"]
      = [("a", JVal.num 1)] := rfl
  have hr2 : restrictFields [("c", JVal.num 2)] ["a", "b"] = [] := rfl
  constructor
  · have := h1.1
    rw [hr1] at this
    exact this (by simp)
  · intro arg hin
    have := (h2.2.1 arg hin).2
    exact this ((h2.2.1 arg hin).1.trans hr2)

/-- C7 (counterexample): a `get_doc` call answered with a status other than
201/403/500 and an **empty** body raises — the fallback `print_err` formats
`res.json()`, which fails on a body that is not JSON — instead of logging
the raw response and returning an absent value. -/
theorem claim7_counterexample :
    get_doc (some "x") 404 RespBody.empty = (DocResult.raised, []) := rfl

/-- C7 (amended): for every `get_doc` call, a 201 status with an empty body
returns an absent value, a 201 status with a JSON body returns the parsed
value, 403 and 500 each log a distinguishable error and return an absent
value, and any other status logs the raw response and returns an absent
value *provided the body parses as JSON*; on those paths no exception is
raised, but on the fallback path an empty or non-JSON body makes the
error-logging call itself raise. -/
theorem claim7_get_doc_amended (f : String) (hf : f ≠ "") (v : JVal)
    (status : Nat) (body : RespBody) :
    (get_doc (some f) 201 RespBody.empty = (.ok none, [])) ∧
    (get_doc (some f) 201 (.jsonBody v) = (.ok (some v), [])) ∧
    (get_doc (some f) 403 body = (.ok none, [DocLog.errFieldForbidden f])) ∧
    (get_doc (some f) 500 body = (.ok none, [DocLog.errFieldServer f])) ∧
    (status ≠ 201 → status ≠ 403 → status ≠ 500 →
      get_doc (some f) status (.jsonBody v)
        = (.ok none, [DocLog.errFieldOther f v])) ∧
    (get_doc none 201 RespBody.empty = (.ok none, [])) ∧
    (get_doc none 201 (.jsonBody v) = (.ok (some v), [])) ∧
    (get_doc none 403 body = (.ok none, [DocLog.errDocForbidden])) ∧
    (get_doc none 500 body = (.ok none, [DocLog.errDocServer])) ∧
    (status ≠ 201 → status ≠ 403 → status ≠ 500 →
      get_doc none status (.jsonBody v)
        = (.ok none, [DocLog.errDocOther v])) ∧
    DocLog.errFieldForbidden f ≠ DocLog.errFieldServer f ∧
    DocLog.errDocForbidden ≠ DocLog.errDocServer := by
  refine ⟨?_, ?_, ?_, ?_, ?_, ?_, ?_, ?_, ?_, ?_, by simp, by simp⟩
  · simp [get_doc, hf, getFieldBranch]
  · simp [get_doc, hf, getFieldBranch]
  · simp [get_doc, hf, getFieldBranch]
  · simp [get_doc, hf, getFieldBranch]
  · intro n1 n2 n3
    simp [get_doc, hf, getFieldBranch, n1, n2, n3]
  · simp [get_doc, getDocBranch]
  · simp [get_doc, getDocBranch]
  · simp [get_doc, getDocBranch]
  · simp [get_doc, getDocBranch]
  · intro n1 n2 n3
    simp [get_doc, getDocBranch, n1, n2, n3]

/-- Witness for the amended C7 at the spec's example call `getDocument("x")`
with concrete statuses. -/
theorem claim7_get_doc_witness :
    get_doc (some "x") 201 RespBody.empty = (.ok none, []) ∧
    get_doc (some "x") 201 (.jsonBody (JVal.num 3))
      = (.ok (some (JVal.num 3)), []) ∧
    get_doc (some "x") 403 RespBody.empty
      = (.ok none, [DocLog.errFieldForbidden "x"]) ∧
    get_doc (some "x") 500 RespBody.empty
      = (.ok none, [DocLog.errFieldServer "x"]) ∧
    get_doc (some "x") 404 (.jsonBody (JVal.num 3))
      = (.ok none, [DocLog.errFieldOther "x" (JVal.num 3)]) := by
  have h := claim7_get_doc_amended "x" (by decide) (JVal.num 3) 404
    RespBody.empty
  exact ⟨h.1, h.2.1, h.2.2.1, h.2.2.2.1,
    h.2.2.2.2.1 (by decide) (by decide) (by decide)⟩

/-! ### Helper lemmas for the subscription negotiation (C2) -/

theorem ackRun_lt (s : ObjState) (hCnt : s.listenersSet = 0) :
    ∀ k, k < s.listeners.length →
      ackRun s k = { s with listenersSet := k } := by
  intro k
  induction k with
  | zero =>
    intro _
    show s = { s with listenersSet := 0 }
    rw [← hCnt]
  | succ k ih =>
    intro hk
    have hk' : k < s.listeners.length := Nat.lt_of_succ_lt hk
    show (on_message (ackRun s k)
        (.known .SUBSCRIBE_LISTENER_SUCCESS) .null).st = _
    rw [ih hk']
    simp only [on_message]
    rw [if_neg (by simpa using Nat.ne_of_lt hk)]

theorem ackRun_final (s : ObjState) (f : Nat) (args : List JVal)
    (kwargs : List (String × JVal))
    (hN : 1 ≤ s.listeners.length)
    (hCnt : s.listenersSet = 0)
    (hHook : s.onStart = some (.triple f args kwargs)) :
    on_message (ackRun s (s.listeners.length - 1))
        (.known .SUBSCRIBE_LISTENER_SUCCESS) .null =
      ⟨{ s with
          listenersSet := s.listeners.length
          connectedToAlivecode := true },
        [Output.launchOnStart f args kwargs, Output.logSuccessConnected],
        false⟩ := by
  have hpred : s.listeners.length - 1 < s.listeners.length :=
    Nat.sub_lt (Nat.lt_of_lt_of_le Nat.zero_lt_one hN) Nat.zero_lt_one
  rw [ackRun_lt s hCnt _ hpred]
  have hsucc : s.listeners.length - 1 + 1 = s.listeners.length :=
    Nat.succ_pred_eq_of_pos (Nat.lt_of_lt_of_le Nat.zero_lt_one hN)
  simp only [on_message]
  rw [if_pos (by simpa using hsucc)]
  simp [hHook, hookSlotFst, set_connected_to_alivecode, hsucc]

/-- C2: from a freshly connecting object with `N ≥ 1` registered listeners
(ack counter still zero, not yet logically connected, on-start hook
registered), receiving `CONNECT_SUCCESS` performs exactly one wire send — a
`SUBSCRIBE_LISTENER` message whose field list is strictly sorted (hence
duplicate-free) and contains exactly the union of all listeners' field
sets — and the logical-connected state is reached only after exactly `N`
`SUBSCRIBE_LISTENER_SUCCESS` acknowledgments, at which point the on-start
hook is launched. -/
theorem claim2_listener_negotiation (s : ObjState) (d : JVal) (f : Nat)
    (args : List JVal) (kwargs : List (String × JVal))
    (hN : 1 ≤ s.listeners.length)
    (hConn : s.connected = true)
    (hCnt : s.listenersSet = 0)
    (hLive : s.connectedToAlivecode = false)
    (hHook : s.onStart = some (.triple f args kwargs)) :
    ((on_message s (.known .CONNECT_SUCCESS) d).out.filterMap sendOf
        = [(Ev.SUBSCRIBE_LISTENER,
            JVal.obj [("fields",
              JVal.list ((unionFields s.listeners).map JVal.str))])]) ∧
    (unionFields s.listeners).Pairwise (· < ·) ∧
    (∀ x, x ∈ unionFields s.listeners ↔ ∃ l ∈ s.listeners, x ∈ l.fields) ∧
    (∀ k, k < s.listeners.length →
      (ackRun s k).connectedToAlivecode = false) ∧
    (ackRun s s.listeners.length).connectedToAlivecode = true ∧
    Output.launchOnStart f args kwargs ∈
      (on_message (ackRun s (s.listeners.length - 1))
        (.known .SUBSCRIBE_LISTENER_SUCCESS) .null).out := by
  have hne : s.listeners.length ≠ 0 := by omega
  refine ⟨?_, pairwise_sortedDedup _, fun x => mem_unionFields x s.listeners,
    ?_, ?_, ?_⟩
  · simp only [on_message]
    rw [if_neg hne]
    simp only [send_event, hConn, if_true]
    by_cases hlog : s.log <;> simp [hlog, sendOf]
  · intro k hk
    rw [ackRun_lt s hCnt k hk]
    exact hLive
  · obtain ⟨m, hm⟩ : ∃ m, s.listeners.length = m + 1 :=
      ⟨s.listeners.length - 1, by omega⟩
    have hm1 : s.listeners.length - 1 = m := by omega
    rw [hm]
    show (on_message (ackRun s m)
        (.known .SUBSCRIBE_LISTENER_SUCCESS) JVal.null).st.connectedToAlivecode
      = true
    rw [← hm1, ackRun_final s f args kwargs hN hCnt hHook]
  · rw [ackRun_final s f args kwargs hN hCnt hHook]
    simp

/-- Witness for C2: two listeners with overlapping, unsorted fields. -/
theorem claim2_listener_negotiation_witness :
    ((on_message
        { initState JVal.null with
            connected := true
            listeners := [⟨0, ["b", "a"]⟩, ⟨1, ["c", "a"]⟩]
            onStart := some (.triple 5 [] []) }
        (.known .CONNECT_SUCCESS) JVal.null).out.filterMap sendOf
      = [(Ev.SUBSCRIBE_LISTENER,
          JVal.obj [("fields",
            JVal.list [JVal.str "a", JVal.str "b", JVal.str "c"])])]) ∧
    (ackRun
        { initState JVal.null with
            connected := true
            listeners := [⟨0, ["b", "a"]⟩, ⟨1, ["c", "a"]⟩]
            onStart := some (.triple 5 [] []) }
        1).connectedToAlivecode = false ∧
    (ackRun
        { initState JVal.null with
            connected := true
            listeners := [⟨0, ["b", "a"]⟩, ⟨1, ["c", "a"]⟩]
            onStart := some (.triple 5 [] []) }
        2).connectedToAlivecode = true := by
  have h := claim2_listener_negotiation
    { initState JVal.null with
        connected := true
        listeners := [⟨0, ["b", "a"]⟩, ⟨1, ["c", "a"]⟩]
        onStart := some (.triple 5 [] []) }
    JVal.null 5 [] [] (by decide) rfl rfl rfl rfl
  refine ⟨?_, h.2.2.2.1 1 (by decide), h.2.2.2.2.1⟩
  have hu : unionFields
      ([⟨0, ["b", "a"]⟩, ⟨1, ["c", "a"]⟩] : List Listener)
      = ["a", "b", "c"] := rfl
  have := h.1
  rw [hu] at this
  exact this

/-! ### Helper lemmas for the acknowledgment-counter invariant (C10) -/

/-- Relation between a state and any state the action dispatcher can turn it
into: the listener registry and the acknowledgment counter are untouched,
and the logical-connected flag is never raised (only ever lowered). -/
def presRel (s t : ObjState) : Prop :=
  t.listeners = s.listeners ∧ t.listenersSet = s.listenersSet ∧
    (t.connectedToAlivecode = true → s.connectedToAlivecode = true)

theorem presRel_refl (s : ObjState) : presRel s s :=
  ⟨rfl, rfl, fun h => h⟩

theorem presRel_trans {a b c : ObjState} (h1 : presRel a b)
    (h2 : presRel b c) : presRel a c :=
  ⟨h2.1.trans h1.1, h2.2.1.trans h1.2.1, fun h => h1.2.2 (h2.2.2 h)⟩

theorem send_event_presRel (s : ObjState) (e : Ev) (d : JVal) :
    presRel s (send_event s e d).1 := by
  rw [send_event]
  split
  · exact ⟨rfl, rfl, fun h => h⟩
  · exact presRel_refl s

theorem execProtoTail_presRel (s : ObjState) (msg : JVal) :
    presRel s (execProtoTail s msg).st := by
  rw [execProtoTail]
  split
  · exact presRel_refl s
  · exact presRel_refl s
  · split
    · exact presRel_refl s
    · exact presRel_refl s
    · split
      · exact presRel_refl s
      · split
        · split
          · rename_i hlive
            simp only [set_connected_to_alivecode]
            split
            · exact ⟨rfl, rfl, fun h => by simp at h⟩
            · exact ⟨rfl, rfl, fun h => by simp at h⟩
          · exact presRel_refl s
        · split
          · exact presRel_refl s
          · simp only [runWrapper]
            exact send_event_presRel s _ _

mutual

theorem execProto_presRel (s : ObjState) (msg : JVal) :
    presRel s (execute_protocol s msg).st := by
  cases msg with
  | list xs =>
    show presRel s
      (let r := execProtoList s xs
       if r.exn then r
       else
         let r2 := execProtoTail r.st (.list xs)
         ⟨r2.st, r.out ++ r2.out, r2.exn⟩).st
    by_cases hx : (execProtoList s xs).exn = true
    · simpa only [hx, if_true] using execProtoList_presRel s xs
    · simp only [hx, if_false, Bool.false_eq_true]
      exact presRel_trans (execProtoList_presRel s xs)
        (execProtoTail_presRel _ _)
  | null => exact execProtoTail_presRel s .null
  | num n => exact execProtoTail_presRel s (.num n)
  | str t => exact execProtoTail_presRel s (.str t)
  | obj kvs => exact execProtoTail_presRel s (.obj kvs)

theorem execProtoList_presRel (s : ObjState) (ms : List JVal) :
    presRel s (execProtoList s ms).st := by
  cases ms with
  | nil => exact presRel_refl s
  | cons m rest =>
    show presRel s
      (let r := execute_protocol s m
       if r.exn then r
       else
         let r2 := execProtoList r.st rest
         ⟨r2.st, r.out ++ r2.out, r2.exn⟩).st
    by_cases hx : (execute_protocol s m).exn = true
    · simpa only [hx, if_true] using execProto_presRel s m
    · simp only [hx, if_false, Bool.false_eq_true]
      exact presRel_trans (execProto_presRel s m)
        (execProtoList_presRel _ rest)

end

theorem ws_step_inv (t : ObjState) (ev : WsEvent)
    (h1 : 1 ≤ t.listeners.length)
    (h2 : t.listeners.length ≤ t.listenersSet)
    (h3 : t.connectedToAlivecode = false) :
    1 ≤ (ws_step t ev).st.listeners.length ∧
    (ws_step t ev).st.listeners.length ≤ (ws_step t ev).st.listenersSet ∧
    (ws_step t ev).st.connectedToAlivecode = false := by
  cases ev with
  | openEv =>
    simp only [ws_step, send_event]
    split <;> exact ⟨h1, h2, h3⟩
  | closeEv =>
    simp only [ws_step]
    repeat' split
    all_goals exact ⟨h1, h2, rfl⟩
  | message e d =>
    cases e with
    | noneEvent => exact ⟨h1, h2, h3⟩
    | unknownEvent s' => exact ⟨h1, h2, h3⟩
    | known ek =>
      cases ek
      case CONNECT_SUCCESS =>
        simp only [ws_step, on_message]
        rw [if_neg (show ¬t.listeners.length = 0 by omega)]
        simp only [send_event]
        split <;> exact ⟨h1, h2, h3⟩
      case RECEIVE_ACTION =>
        have hp := execProto_presRel t d
        refine ⟨?_, ?_, ?_⟩
        · rw [show (ws_step t (.message (.known .RECEIVE_ACTION) d)).st
            = (execute_protocol t d).st from rfl, hp.1]
          exact h1
        · rw [show (ws_step t (.message (.known .RECEIVE_ACTION) d)).st
            = (execute_protocol t d).st from rfl, hp.1, hp.2.1]
          exact h2
        · rw [show (ws_step t (.message (.known .RECEIVE_ACTION) d)).st
            = (execute_protocol t d).st from rfl]
          cases hlv : (execute_protocol t d).st.connectedToAlivecode with
          | false => rfl
          | true => rw [hp.2.2 hlv] at h3; exact absurd h3 (by simp)
      case RECEIVE_LISTEN =>
        simp only [ws_step, on_message]
        repeat' split
        all_goals exact ⟨h1, h2, h3⟩
      case RECEIVE_BROADCAST =>
        simp only [ws_step, on_message]
        repeat' split
        all_goals exact ⟨h1, h2, h3⟩
      case SUBSCRIBE_LISTENER_SUCCESS =>
        simp only [ws_step, on_message]
        rw [if_neg (show ¬t.listenersSet + 1 = t.listeners.length by omega)]
        exact ⟨h1, Nat.le_succ_of_le h2, h3⟩
      case ERROR =>
        simp only [ws_step, on_message, set_connected_to_alivecode]
        split <;> exact ⟨h1, h2, rfl⟩
      case PING =>
        simp only [ws_step, on_message, send_event]
        split <;> exact ⟨h1, h2, h3⟩
      all_goals exact ⟨h1, h2, h3⟩

theorem ws_step_counter_mono (t : ObjState) (ev : WsEvent) :
    t.listenersSet ≤ (ws_step t ev).st.listenersSet := by
  cases ev with
  | openEv =>
    simp only [ws_step, send_event]
    split <;> exact Nat.le_refl _
  | closeEv =>
    simp only [ws_step]
    repeat' split
    all_goals exact Nat.le_refl _
  | message e d =>
    cases e with
    | noneEvent => exact Nat.le_refl _
    | unknownEvent s' => exact Nat.le_refl _
    | known ek =>
      cases ek
      case RECEIVE_ACTION =>
        rw [show (ws_step t (.message (.known .RECEIVE_ACTION) d)).st
          = (execute_protocol t d).st from rfl,
          (execProto_presRel t d).2.1]
      all_goals
        simp only [ws_step, on_message, send_event,
          set_connected_to_alivecode]
      all_goals repeat' split
      all_goals first
        | exact Nat.le_refl _
        | exact Nat.le_succ _

theorem runEvents_not_live (t : ObjState)
    (h1 : 1 ≤ t.listeners.length)
    (h2 : t.listeners.length ≤ t.listenersSet)
    (h3 : t.connectedToAlivecode = false) (evs : List WsEvent) :
    (runEvents t evs).connectedToAlivecode = false := by
  induction evs generalizing t with
  | nil => exact h3
  | cons e rest ih =>
    have h := ws_step_inv t e h1 h2 h3
    show (runEvents (ws_step t e).st rest).connectedToAlivecode = false
    exact ih _ h.1 h.2.1 h.2.2

/-- C10: the subscribe-acknowledgment counter starts at zero at
construction, is never decreased by any websocket callback, and the close
callback resets both connection flags but not the counter; consequently an
object with `N ≥ 1` listeners whose counter has already reached `N` (it went
live once) and is currently logically disconnected can never again become
logically connected, whatever sequence of open/message/close callbacks a
later `run()` delivers. -/
theorem claim10_never_live_again (s : ObjState)
    (hN : 1 ≤ s.listeners.length)
    (hC : s.listeners.length ≤ s.listenersSet)
    (hL : s.connectedToAlivecode = false) :
    (∀ oid, (initState oid).listenersSet = 0) ∧
    (∀ t ev, t.listenersSet ≤ (ws_step t ev).st.listenersSet) ∧
    (∀ t : ObjState, (ws_step t WsEvent.closeEv).st.connected = false ∧
      (ws_step t WsEvent.closeEv).st.connectedToAlivecode = false ∧
      (ws_step t WsEvent.closeEv).st.listenersSet = t.listenersSet) ∧
    (∀ evs, (runEvents s evs).connectedToAlivecode = false) := by
  refine ⟨fun _ => rfl, ws_step_counter_mono, ?_,
    fun evs => runEvents_not_live s hN hC hL evs⟩
  intro t
  simp only [ws_step]
  repeat' split
  all_goals exact ⟨rfl, rfl, rfl⟩

/-- Witness for C10: a once-live single-listener object, put through a full
reconnection attempt (open, connect ack, subscribe ack, close), never goes
live again. -/
theorem claim10_never_live_again_witness :
    1 ≤ ({ initState JVal.null with
        listeners := [⟨0, ["a"]⟩]
        listenersSet := 1 } : ObjState).listeners.length ∧
    ({ initState JVal.null with
        listeners := [⟨0, ["a"]⟩]
        listenersSet := 1 } : ObjState).listeners.length ≤
      ({ initState JVal.null with
          listeners := [⟨0, ["a"]⟩]
          listenersSet := 1 } : ObjState).listenersSet ∧
    (runEvents
        { initState JVal.null with
            listeners := [⟨0, ["a"]⟩]
            listenersSet := 1 }
        [WsEvent.openEv,
          WsEvent.message (.known .CONNECT_SUCCESS) JVal.null,
          WsEvent.message (.known .SUBSCRIBE_LISTENER_SUCCESS) JVal.null,
          WsEvent.message (.known .SUBSCRIBE_LISTENER_SUCCESS) JVal.null,
          WsEvent.closeEv]).connectedToAlivecode = false := by
  refine ⟨by decide, by decide, ?_⟩
  exact (claim10_never_live_again
    { initState JVal.null with
        listeners := [⟨0, ["a"]⟩]
        listenersSet := 1 }
    (by decide) (by decide) rfl).2.2.2 _

end Aliot
